import Mathlib

/-!
Verification development for the enoki-jit core excerpt
(`src/common.h`, `src/init.cpp`, `src/llvm_core.cpp`).

The C++ sources are shallowly embedded: stateful functions become pure
Lean functions over explicit state records, side effects (logging, CUDA
driver calls, allocation, raising) become explicit event traces, and
fallible operations return `Option`.  Each definition is translated
from the corresponding source function; the few routines that live
outside the excerpt (`jit_var_dec_ref_ext`, the LLVM capability
predicates) are modelled from the specification and say so in their
doc comments.
-/

set_option maxHeartbeats 1000000

namespace EnokiJit

/-! ### Log levels (enoki LogLevel enum, ordered Error < Warn < Info < Debug < Trace) -/

inductive LogLevel
  | Error
  | Warn
  | Info
  | Debug
  | Trace
deriving DecidableEq

def LogLevel.toNat : LogLevel → Nat
  | LogLevel.Error => 0
  | LogLevel.Warn => 1
  | LogLevel.Info => 2
  | LogLevel.Debug => 3
  | LogLevel.Trace => 4

/-- `std::max(state.log_level_stderr, state.log_level_callback) >= LogLevel::Warn`
(init.cpp line 234). -/
def warnLevelEnabled (stderrLevel callbackLevel : LogLevel) : Bool :=
  max stderrLevel.toNat callbackLevel.toNat ≥ LogLevel.Warn.toNat

/-! ### `detail::scope_guard` (common.h lines 35-50)

The C++ struct stores `func`, declares a constructor, a deleted copy
constructor, a move constructor and (deleted / move) assignment, and no
destructor.  The implicitly-defaulted destructor destroys the stored
member without invoking it.  Each member function is modelled together
with the list of invocations of the stored function that it performs. -/

structure ScopeGuard (F : Type) where
  func : F

/-- Constructor `scope_guard(const Func &func) : func(func) { }`: stores the
function, performs no invocation. -/
def scopeGuardConstruct (F : Type) (f : F) : ScopeGuard F × List F :=
  ({ func := f }, [])

/-- Move constructor `scope_guard(scope_guard &&g) : func(std::move(g.func)) {}`:
transfers the function, performs no invocation. -/
def scopeGuardMove (F : Type) (g : ScopeGuard F) : ScopeGuard F × List F :=
  ({ func := g.func }, [])

/-- Destruction: the struct declares no destructor, so the implicitly-defaulted
destructor runs; it destroys the member `func` and performs no invocation. -/
def scopeGuardDestruct (F : Type) (_g : ScopeGuard F) : List F :=
  []

/-- A chain of `moves` move-constructions starting from `g`, with the
invocations each one performs. -/
def scopeGuardMoveChain (F : Type) : Nat → ScopeGuard F → ScopeGuard F × List F
  | 0, g => (g, [])
  | n + 1, g =>
    let (g1, c) := scopeGuardMove F g
    let (g2, cs) := scopeGuardMoveChain F n g1
    (g2, c ++ cs)

/-- A full lifecycle of a guard produced by the `scope_guard` helper
(common.h lines 47-50): construction from `f`, any number of moves, and
destruction of the final guard.  Returns every invocation of the stored
function performed during the lifecycle. -/
def scopeGuardLifecycleCalls (F : Type) (f : F) (moves : Nat) : List F :=
  let (g0, c0) := scopeGuardConstruct F f
  let (gN, c1) := scopeGuardMoveChain F moves g0
  c0 ++ c1 ++ scopeGuardDestruct F gN

/-! ### ThreadState and the synchronization operations (init.cpp lines 399-446)

A `ThreadState` is reduced to the fields the sync operations interact
with: its identity, backend flag (`cuda`), CUDA context, and whether it
still has outstanding work (a busy stream for CUDA, a pending `task`
for the CPU backend). -/

structure ThreadState where
  id : Nat := 0
  cuda : Bool := false
  device : Int := 0
  context : Nat := 0
  pending : Bool := false
deriving DecidableEq

/-- Primitive events performed by the sync operations, in program order.
`unlock`/`lock` are the actions of `unlock_guard` (common.h lines 22-33):
its constructor unlocks `state.mutex`, its destructor re-locks it.
`readTssSnapshot` is the vector copy `std::vector<ThreadState *> tss = state.tss`.
The three wait events are the blocking calls `cuStreamSynchronize`,
`task_wait_and_release` and `cuCtxSynchronize`. -/
inductive SyncEv
  | unlock
  | lock
  | readTssSnapshot
  | waitStream (tsId : Nat)
  | waitTask (tsId : Nat)
  | waitCtx (ctx : Nat)
deriving DecidableEq

/-- Blocking calls performed by `jit_sync_thread(ThreadState *ts)`
(init.cpp lines 399-409): nothing for a null pointer, a stream
synchronization for a CUDA state, a task wait for a CPU state. -/
def syncThreadWaits (ts : Option ThreadState) : List SyncEv :=
  match ts with
  | none => []
  | some t => if t.cuda then [SyncEv.waitStream t.id] else [SyncEv.waitTask t.id]

/-- Event trace of `jit_sync_thread()` (init.cpp lines 412-416), entered with
`state.mutex` held: `unlock_guard` releases it, both thread-local states are
synchronized, the guard re-locks on scope exit. -/
def jit_sync_thread_trace (tsCuda tsLlvm : Option ThreadState) : List SyncEv :=
  [SyncEv.unlock] ++ syncThreadWaits tsCuda ++ syncThreadWaits tsLlvm ++ [SyncEv.lock]

/-- Event trace of `jit_sync_device()` (init.cpp lines 419-438), entered with
`state.mutex` held.  If the calling thread has a CUDA state, the mutex is
released around `cuCtxSynchronize()`.  If the calling thread has an LLVM
state, `state.tss` is copied into a vector snapshot (under the lock), the
mutex is released, and every non-CUDA state in the snapshot is synchronized. -/
def jit_sync_device_trace (tsCuda tsLlvm : Option ThreadState)
    (tss : List ThreadState) : List SyncEv :=
  (match tsCuda with
   | some t => [SyncEv.unlock, SyncEv.waitCtx t.context, SyncEv.lock]
   | none => []) ++
  (match tsLlvm with
   | some _ =>
     [SyncEv.readTssSnapshot, SyncEv.unlock] ++
       List.flatten ((tss.filter (fun t => !t.cuda)).map (fun t => syncThreadWaits (some t))) ++
       [SyncEv.lock]
   | none => [])

/-- Event trace of `jit_sync_all_devices()` (init.cpp lines 441-446), entered
with `state.mutex` held: snapshot of `state.tss` under the lock, release, one
blocking sync per snapshot entry, re-lock. -/
def jit_sync_all_devices_trace (tss : List ThreadState) : List SyncEv :=
  [SyncEv.readTssSnapshot, SyncEv.unlock] ++
    List.flatten (tss.map (fun t => syncThreadWaits (some t))) ++
    [SyncEv.lock]

def isWaitEv : SyncEv → Bool
  | SyncEv.waitStream _ => true
  | SyncEv.waitTask _ => true
  | SyncEv.waitCtx _ => true
  | _ => false

/-- Every blocking wait in the trace happens while the mutex is released
(`held` is the lock state on entry). -/
def waitsUnlocked (held : Bool) : List SyncEv → Bool
  | [] => true
  | SyncEv.unlock :: rest => waitsUnlocked false rest
  | SyncEv.lock :: rest => waitsUnlocked true rest
  | SyncEv.readTssSnapshot :: rest => waitsUnlocked held rest
  | SyncEv.waitStream _ :: rest => !held && waitsUnlocked held rest
  | SyncEv.waitTask _ :: rest => !held && waitsUnlocked held rest
  | SyncEv.waitCtx _ :: rest => !held && waitsUnlocked held rest

/-- Every ThreadState-list snapshot in the trace is taken while the mutex is
held. -/
def snapshotsLocked (held : Bool) : List SyncEv → Bool
  | [] => true
  | SyncEv.unlock :: rest => snapshotsLocked false rest
  | SyncEv.lock :: rest => snapshotsLocked true rest
  | SyncEv.readTssSnapshot :: rest => held && snapshotsLocked held rest
  | _ :: rest => snapshotsLocked held rest

/-- Lock state after executing the trace, starting from `held`. -/
def lockStateAfter (held : Bool) : List SyncEv → Bool
  | [] => held
  | SyncEv.unlock :: rest => lockStateAfter false rest
  | SyncEv.lock :: rest => lockStateAfter true rest
  | _ :: rest => lockStateAfter held rest

/-! ### State-transformer view of `jit_sync_device` (init.cpp lines 419-438)

`cuCtxSynchronize()` completes all outstanding work in the calling
thread's current context; `jit_sync_thread(ts)` on a CPU state awaits
and clears its pending task.  The state records which CUDA contexts
still have outstanding work and the registered ThreadStates. -/

structure SyncState where
  tss : List ThreadState
  ctxPending : List Nat
deriving DecidableEq

def jit_sync_device_run (tsCuda tsLlvm : Option ThreadState) (st : SyncState) :
    SyncState :=
  let st1 :=
    match tsCuda with
    | some t => { st with ctxPending := st.ctxPending.filter (fun c => c ≠ t.context) }
    | none => st
  match tsLlvm with
  | some _ =>
    { st1 with
      tss := st1.tss.map (fun t => if !t.cuda then { t with pending := false } else t) }
  | none => st1

/-- The property claimed of `jit_sync_device()` at one input: the calling
thread's current context has no outstanding work, and every registered
non-CUDA ThreadState has been synchronized. -/
def syncDeviceClaimHolds (tsCuda tsLlvm : Option ThreadState) (st : SyncState) :
    Bool :=
  (match tsCuda with
   | some t => (jit_sync_device_run tsCuda tsLlvm st).ctxPending.all
       (fun c => c ≠ t.context)
   | none => true) &&
  (jit_sync_device_run tsCuda tsLlvm st).tss.all (fun t => t.cuda || !t.pending)

/-! ### Variables and the shutdown leak pass (init.cpp lines 234-275)

A `Variable` keeps the fields the leak pass inspects: up to four
dependency ids (`0` encodes absence), both reference counts, and the
`scatter` flag.  `state.variables` is the VariableMap, embedded as an
association list from id to Variable. -/

structure Variable where
  deps : List Nat := []
  ref_count_int : Nat := 0
  ref_count_ext : Nat := 0
  scatter : Bool := false
deriving DecidableEq

abbrev VarMap := List (Nat × Variable)

def lookupVar (m : VarMap) (i : Nat) : Option Variable :=
  match m.find? (fun kv => kv.1 == i) with
  | some kv => some kv.2
  | none => none

def removeVar (m : VarMap) (i : Nat) : VarMap :=
  m.filter (fun kv => kv.1 ≠ i)

def updateVar (m : VarMap) (i : Nat) (v : Variable) : VarMap :=
  m.map (fun kv => if kv.1 = i then (i, v) else kv)

/-- Modelled from the spec: `jit_var_dec_ref_ext` / `jit_var_dec_ref_int` live
in `var.cpp`, which is not part of this excerpt.  Spec section 4.5: the
operation decrements the designated reference count, and "when either count
reaches zero, collection runs: the Variable's deps are decremented
(recursively), the Variable is removed from the VariableMap".  `fuel` bounds
the recursion depth; `ext` selects the external counter. -/
def decRefFuel : Nat → Bool → VarMap → Nat → VarMap
  | 0, _, m, _ => m
  | fuel + 1, ext, m, i =>
    match lookupVar m i with
    | none => m
    | some v =>
      let v1 := if ext then { v with ref_count_ext := v.ref_count_ext - 1 }
                else { v with ref_count_int := v.ref_count_int - 1 }
      if v1.ref_count_ext = 0 ∧ v1.ref_count_int = 0 then
        (v1.deps.filter (fun d => d ≠ 0)).foldl
          (fun acc d => decRefFuel fuel false acc d) (removeVar m i)
      else updateVar m i v1

/-- Modelled from the spec: external-reference decrement with collection
(spec section 4.5); the map size bounds the collection depth. -/
def jit_var_dec_ref_ext (m : VarMap) (i : Nat) : VarMap :=
  decRefFuel (m.length + 1) true m i

/-- Warn-level log lines emitted by the leak-report loop of `jit_shutdown`
(init.cpp lines 244-259). -/
inductive LogEv
  | leaksDetectedHeader
  | leakReport (id refInt refExt : Nat)
  | skipRemainder
  | leakSummary (count : Nat)
deriving DecidableEq

/-- The loop over `state.variables` at init.cpp lines 244-256, carrying the
running `n_leaked` counter: a header before the first entry, an individual
report while `n_leaked < 10`, a single skip notice at `n_leaked == 10`. -/
def leakReportLoop (n : Nat) : VarMap → List LogEv
  | [] => []
  | (i, v) :: rest =>
    ((if n = 0 then [LogEv.leaksDetectedHeader] else []) ++
     (if n < 10 then [LogEv.leakReport i v.ref_count_int v.ref_count_ext]
      else if n = 10 then [LogEv.skipRemainder] else [])) ++
    leakReportLoop (n + 1) rest

/-- The `leaked_scatters` collection at init.cpp lines 236-241: ids of
variables carrying the scatter flag whose counts are exactly
(external = 1, internal = 0). -/
def scatterLeakIds (m : VarMap) : List Nat :=
  (m.filter (fun kv =>
    kv.2.scatter && kv.2.ref_count_ext == 1 && kv.2.ref_count_int == 0)).map
    (fun kv => kv.1)

/-- The variable map after the decrement loop at init.cpp lines 242-243. -/
def leakVarsAfter (m : VarMap) : VarMap :=
  (scatterLeakIds m).foldl jit_var_dec_ref_ext m

/-- The log lines emitted at init.cpp lines 244-259: the report loop over
the post-decrement map followed by the summary when anything leaked. -/
def leakLogs (m : VarMap) : List LogEv :=
  leakReportLoop 0 (leakVarsAfter m) ++
    (if (leakVarsAfter m).length > 0 then
      [LogEv.leakSummary (leakVarsAfter m).length]
     else [])

/-- The leak pass of `jit_shutdown` (init.cpp lines 234-265).  Runs only when
the effective log level reaches Warn.  First collects the ids of scatter
variables whose counts are exactly (ext = 1, int = 0) and decrements their
external reference; then reports every variable still in the map, and closes
with a summary if anything leaked.  Returns the map after the decrements, the
emitted log lines, and the decremented ids. -/
def leakPass (warnEnabled : Bool) (m : VarMap) : VarMap × List LogEv × List Nat :=
  if warnEnabled then (leakVarsAfter m, leakLogs m, scatterLeakIds m)
  else (m, [], [])

/-- CSE cache key (spec section 3: opcode, type, size, four dep ids); the
shutdown check only prints the dep fields. -/
structure CseKey where
  dep : List Nat := []
deriving DecidableEq

/-- How the tail of `jit_shutdown` ends (init.cpp lines 267-275): a fatal
`jit_fail` for a CSE-cache leak (after logging every stale entry), a fatal
`jit_fail` for a pointer-literal leak, or a normal return. -/
inductive ShutdownOutcome
  | fatalCseLeak (staleEntries : List (CseKey × Nat))
  | fatalPtrLeak
  | normal
deriving DecidableEq

/-- The consistency checks at init.cpp lines 267-275, performed on the
variable map as it stands after the leak pass.  These checks do not depend
on the log level. -/
def jit_shutdown_consistency (variablesAfter : VarMap)
    (cseCache : List (CseKey × Nat)) (variableFromPtr : List (Nat × Nat)) :
    ShutdownOutcome :=
  if variablesAfter = [] ∧ cseCache ≠ [] then
    ShutdownOutcome.fatalCseLeak cseCache
  else if variablesAfter = [] ∧ variableFromPtr ≠ [] then
    ShutdownOutcome.fatalPtrLeak
  else ShutdownOutcome.normal

/-- The slice of the global `State` that the shutdown leak-detection code
reads (init.cpp lines 234-275). -/
structure ShutdownState where
  vars : VarMap := []
  cse_cache : List (CseKey × Nat) := []
  variable_from_ptr : List (Nat × Nat) := []
  log_level_stderr : LogLevel := LogLevel.Error
  log_level_callback : LogLevel := LogLevel.Error
deriving DecidableEq

structure ShutdownResult where
  outcome : ShutdownOutcome
  varsAfter : VarMap
  logs : List LogEv
  decremented : List Nat
deriving DecidableEq

/-- The leak-detection and consistency-check portion of `jit_shutdown`
(init.cpp lines 234-275): the Warn-gated leak pass followed by the
unconditional CSE-cache and pointer-literal checks. -/
def jit_shutdown_leak_check (st : ShutdownState) : ShutdownResult :=
  let (m1, evs, decs) :=
    leakPass (warnLevelEnabled st.log_level_stderr st.log_level_callback)
      st.vars
  { outcome := jit_shutdown_consistency m1 st.cse_cache st.variable_from_ptr
    varsAfter := m1
    logs := evs
    decremented := decs }

/-! ### `jit_init_thread_state` (init.cpp lines 309-367) -/

structure Device where
  id : Nat := 0
  context : Nat := 0
  computeCapability : Nat := 0
deriving DecidableEq

/-- The slice of the global `State` that `jit_init_thread_state` reads and
writes. -/
structure InitState where
  has_cuda : Bool := false
  has_llvm : Bool := false
  devices : List Device := []
  tss : List ThreadState := []
deriving DecidableEq

/-- Error messages produced by `jit_raise` inside `jit_init_thread_state`;
the backend-inactive messages carry the environment variable and library
name they mention (init.cpp lines 323-327, 332-334, 354-358). -/
inductive RaiseMsg
  | cudaBackendInactive (envVar fname : String)
  | noCudaDevices
  | llvmBackendInactive (envVar fname : String)
deriving DecidableEq

/-- Heap and control events of one `jit_init_thread_state` call: the `new`
allocation, the `delete` on the error paths, the `jit_raise`, and the
`state.tss.push_back` registration. -/
inductive TSEvent
  | allocTS (id : Nat)
  | freeTS (id : Nat)
  | raiseError (msg : RaiseMsg)
  | registerTS (id : Nat)
deriving DecidableEq

/-- `jit_init_thread_state` (init.cpp lines 309-367) on the Linux constants:
allocate a ThreadState; for an unavailable backend, free it and raise a
message naming the override environment variable; for CUDA with no devices,
free it and raise; otherwise initialize it and append it to `state.tss`.
Returns the event trace, the state afterwards, and the created state. -/
def jit_init_thread_state (cuda : Bool) (st : InitState) (freshId : Nat) :
    List TSEvent × InitState × Option ThreadState :=
  let ev0 := [TSEvent.allocTS freshId]
  if cuda then
    if !st.has_cuda then
      (ev0 ++ [TSEvent.freeTS freshId,
               TSEvent.raiseError
                 (RaiseMsg.cudaBackendInactive "ENOKI_LIBCUDA_PATH" "libcuda.so")],
       st, none)
    else if st.devices.isEmpty then
      (ev0 ++ [TSEvent.freeTS freshId, TSEvent.raiseError RaiseMsg.noCudaDevices],
       st, none)
    else
      let dev := st.devices.headD {}
      let ts : ThreadState :=
        { id := freshId, cuda := true, device := 0, context := dev.context }
      (ev0 ++ [TSEvent.registerTS freshId], { st with tss := st.tss ++ [ts] }, some ts)
  else
    if !st.has_llvm then
      (ev0 ++ [TSEvent.freeTS freshId,
               TSEvent.raiseError
                 (RaiseMsg.llvmBackendInactive "ENOKI_LIBLLVM_PATH" "libLLVM.so")],
       st, none)
    else
      let ts : ThreadState := { id := freshId, cuda := false, device := -1 }
      (ev0 ++ [TSEvent.registerTS freshId], { st with tss := st.tss ++ [ts] }, some ts)

/-! ### `jit_find_library` (init.cpp lines 449-529, POSIX branch)

C strings become `List Char` (the characters before the terminator);
`isdigit`, `strtol` on a digit-initial string, and `strcmp` are embedded
directly.  The glob result is a list of `FileEntry`; `isLinkOrUnstat`
records whether `lstat` failed or reported `S_ISLNK`.  `dlopen` becomes
a success predicate on paths; the function returns the path that was
successfully opened (`none` models a null handle). -/

structure FileEntry where
  path : List Char
  isLinkOrUnstat : Bool := false
deriving DecidableEq

/-- `strcmp(a, b) < 0` on terminator-free character lists. -/
def strcmpLt : List Char → List Char → Bool
  | [], [] => false
  | [], _ :: _ => true
  | _ :: _, [] => false
  | a :: as, b :: bs => if a = b then strcmpLt as bs else decide (a < b)

/-- The scan performed by `strtol(a, &end, 10)` on a string whose first
character is a digit: the mathematical value of the maximal leading digit
run and the rest of the string (the `end` pointer). -/
def parseDigits : List Char → Nat → Nat × List Char
  | [], acc => (acc, [])
  | c :: rest, acc =>
    if c.isDigit then parseDigits rest (acc * 10 + (c.toNat - '0'.toNat))
    else (acc, c :: rest)

/-- The `long` value `strtol` returns for a non-negative digit run of
mathematical value `v` under LP64 (Linux x86-64): on overflow `strtol`
saturates at `LONG_MAX = 2^63 - 1`. -/
def strtolLong (v : Nat) : Nat := min v (2 ^ 63 - 1)

/-- The narrowing `int ai = <long value>` (init.cpp lines 479-480): the low
32 bits of the long, read as two's complement (GCC's implementation-defined
behavior on x86-64). -/
def intOfLong (r : Nat) : Int :=
  if r % 2 ^ 32 < 2 ^ 31 then ((r % 2 ^ 32 : Nat) : Int)
  else ((r % 2 ^ 32 : Nat) : Int) - 2 ^ 32

/-- `int ai = strtol(a, &ap, 10)` applied to a digit run of mathematical
value `v`: saturating long parse followed by the int narrowing.  Values
below `2^31` come through exactly; larger runs wrap. -/
def strtolInt (v : Nat) : Int := intOfLong (strtolLong v)

/-- The inner `while (*a == *b && *a != '\0' && !isdigit(*a))` advance of the
comparator lambda (init.cpp lines 474-476). -/
def skipEqNonDigit : List Char → List Char → List Char × List Char
  | a :: as, b :: bs =>
    if a = b ∧ ¬ a.isDigit then skipEqNonDigit as bs else (a :: as, b :: bs)
  | a, b => (a, b)

/-- The comparator lambda passed to `std::sort` (init.cpp lines 472-490):
advance over equal non-digit characters; when both sides sit on digits,
compare the parsed digit runs through their `int`-narrowed `strtol` values
and continue past them on a tie; otherwise fall back to `strcmp`.  `fuel`
bounds the outer `while (a && b)` loop; every iteration that recurses
consumes at least one character from each side. -/
def verLtFuel : Nat → List Char → List Char → Bool
  | 0, _, _ => false
  | fuel + 1, a0, b0 =>
    let p := skipEqNonDigit a0 b0
    match p.1, p.2 with
    | a :: as, b :: bs =>
      if a.isDigit ∧ b.isDigit then
        let pa := parseDigits (a :: as) 0
        let pb := parseDigits (b :: bs) 0
        let ai := strtolInt pa.1
        let bi := strtolInt pb.1
        if ai ≠ bi then decide (ai < bi)
        else verLtFuel fuel pa.2 pb.2
      else strcmpLt (a :: as) (b :: bs)
    | a, b => strcmpLt a b

def verLt (a b : List Char) : Bool :=
  verLtFuel (a.length + b.length + 1) a b

/-- Insert into a sorted list using a less-than comparator (the embedding of
`std::sort` with the comparator lambda). -/
def insertByLt {α : Type} (lt : α → α → Bool) (x : α) : List α → List α
  | [] => [x]
  | y :: ys => if lt x y then x :: y :: ys else y :: insertByLt lt x ys

def sortByLt {α : Type} (lt : α → α → Bool) : List α → List α
  | [] => []
  | x :: xs => insertByLt lt x (sortByLt lt xs)

/-- The two-pass selection loop over the sorted glob matches (init.cpp lines
491-503): pass `j = 0` skips entries whose `lstat` failed or that are
symbolic links and remembers the last remaining one; if that pass chose
nothing, pass `j = 1` takes the last entry outright. -/
def chooseCandidate (sorted : List FileEntry) : Option (List Char) :=
  let pass0 := sorted.filter (fun f => !f.isLinkOrUnstat)
  match pass0.getLast? with
  | some f => some f.path
  | none => (sorted.getLast?).map (fun f => f.path)

/-- `jit_find_library` (init.cpp lines 449-529, POSIX branch).  An
environment override that is set to the empty string counts as unset; a set
override is tried instead of the canonical name and a failure is final (no
glob).  Otherwise, after `dlopen(fname)` fails, the glob matches are
consulted: with more than one match they are sorted with `verLt` and the
two-pass selection picks the candidate; with exactly one match it is taken
directly.  Every failure yields `none` (a null handle); no path terminates
the process. -/
def jit_find_library (dlopenOk : List Char → Bool) (envVal : Option (List Char))
    (fname : List Char) (globResults : List FileEntry) : Option (List Char) :=
  let env : Option (List Char) :=
    match envVal with
    | some v => if v.isEmpty then none else some v
    | none => none
  let firstTry := env.getD fname
  if dlopenOk firstTry then some firstTry
  else
    match env with
    | some _ => none
    | none =>
      let chosen : Option (List Char) :=
        if globResults.length > 1 then
          chooseCandidate (sortByLt (fun x y => verLt x.path y.path) globResults)
        else if globResults.length = 1 then (globResults.head?).map (fun f => f.path)
        else none
      match chosen with
      | some c => if dlopenOk c then some c else none
      | none => none

/-- Decimal value of a digit run (the value `strtol` assigns to it). -/
def digitsVal (ds : List Char) : Nat :=
  ds.foldl (fun acc c => acc * 10 + (c.toNat - '0'.toNat)) 0

/-! ### The peer-to-peer loop of `jit_init` (init.cpp lines 158-176)

The CUDA driver responses are oracles: `canPeer a b` is the value
`cuDeviceCanAccessPeer` writes for the ordered pair, and `enable a b` is
the `CUresult` of `cuCtxEnablePeerAccess(b.context, 0)` issued under
`a`'s context.  `cuda_check` turns any result other than success or
`CUDA_ERROR_PEER_ACCESS_ALREADY_ENABLED` into a fatal error, which
aborts the loop. -/

inductive PeerEnableResult
  | success
  | alreadyEnabled
  | otherError
deriving DecidableEq

inductive CudaCall
  | canAccessPeer (a b : Nat)
  | enablePeerAccess (a b : Nat)
  | fatalCudaError (a b : Nat)
deriving DecidableEq

/-- One iteration of the inner P2P loop body for the pair `(a, b)`:
returns the driver calls issued and whether `cuda_check` failed fatally. -/
def p2pPairTrace (canPeer : Nat → Nat → Bool)
    (enable : Nat → Nat → PeerEnableResult) (a b : Device) :
    List CudaCall × Bool :=
  if a.id = b.id then ([], false)
  else if canPeer a.id b.id then
    match enable a.id b.id with
    | PeerEnableResult.alreadyEnabled =>
      ([CudaCall.canAccessPeer a.id b.id, CudaCall.enablePeerAccess a.id b.id], false)
    | PeerEnableResult.success =>
      ([CudaCall.canAccessPeer a.id b.id, CudaCall.enablePeerAccess a.id b.id], false)
    | PeerEnableResult.otherError =>
      ([CudaCall.canAccessPeer a.id b.id, CudaCall.enablePeerAccess a.id b.id,
        CudaCall.fatalCudaError a.id b.id], true)
  else ([CudaCall.canAccessPeer a.id b.id], false)

/-- Sequence pair iterations, aborting on the first fatal error. -/
def runPairs (f : Device → Device → List CudaCall × Bool) :
    List (Device × Device) → List CudaCall × Bool
  | [] => ([], false)
  | p :: rest =>
    let r := f p.1 p.2
    if r.2 then (r.1, true)
    else
      let r2 := runPairs f rest
      (r.1 ++ r2.1, r2.2)

/-- The iteration order of the nested `for (auto &a : state.devices)
for (auto &b : state.devices)` loops. -/
def devicePairs (ds : List Device) : List (Device × Device) :=
  ds.flatMap (fun a => ds.map (fun b => (a, b)))

/-- The P2P loop of `jit_init` (init.cpp lines 158-176) over the accepted
device list. -/
def jit_init_p2p (canPeer : Nat → Nat → Bool)
    (enable : Nat → Nat → PeerEnableResult) (ds : List Device) :
    List CudaCall × Bool :=
  runPairs (p2pPairTrace canPeer enable) (devicePairs ds)

/-! ### `jitc_llvm_init` (llvm_core.cpp lines 63-181)

The dynamically resolved LLVM API table is a record of capability
groups, each a list of per-symbol resolution flags.  The capability
predicates live in `llvm_api.cpp`, outside this excerpt, and are
modelled from the specification.  Host properties (the feature string,
the `__aarch64__`/`__APPLE__` configuration) and the outcomes of the
ORCv2/MCJIT initialization are inputs. -/

structure LlvmApiTable where
  coreSyms : List Bool := []
  pbNewSyms : List Bool := []
  pbLegacySyms : List Bool := []
  orcv2Syms : List Bool := []
  mcjitSyms : List Bool := []
deriving DecidableEq

/-- Modelled from the spec: the capability predicates of `llvm_api.cpp`
(not part of this excerpt) "return true only when all symbols in that
capability group resolved" (spec section 4.2). -/
def jitc_llvm_api_has_core (t : LlvmApiTable) : Bool := t.coreSyms.all id

/-- Modelled from the spec: see `jitc_llvm_api_has_core`. -/
def jitc_llvm_api_has_pb_new (t : LlvmApiTable) : Bool := t.pbNewSyms.all id

/-- Modelled from the spec: see `jitc_llvm_api_has_core`. -/
def jitc_llvm_api_has_pb_legacy (t : LlvmApiTable) : Bool := t.pbLegacySyms.all id

/-- Modelled from the spec: see `jitc_llvm_api_has_core`. -/
def jitc_llvm_api_has_orcv2 (t : LlvmApiTable) : Bool := t.orcv2Syms.all id

/-- Modelled from the spec: see `jitc_llvm_api_has_core`. -/
def jitc_llvm_api_has_mcjit (t : LlvmApiTable) : Bool := t.mcjitSyms.all id

/-- Environment of one `jitc_llvm_init` call: whether `jitc_llvm_api_init`
succeeded, the resolved API table, the host CPU feature substrings reported
by `LLVMGetHostCPUFeatures`, the platform flag for the `__aarch64__`
conditional, and the outcomes of `jitc_llvm_orcv2_init` /
`jitc_llvm_mcjit_init`. -/
structure LlvmEnv where
  apiInitOk : Bool := true
  api : LlvmApiTable := {}
  features : List String := []
  aarch64 : Bool := false
  orcv2InitOk : Bool := false
  mcjitInitOk : Bool := false
deriving DecidableEq

/-- Mutable module state of `llvm_core.cpp` touched by init/shutdown:
the two static flags, the chosen vector width, the engine selector, and
whether `jitc_llvm_api_shutdown` has been called (the API table released). -/
structure LlvmState where
  initAttempted : Bool := false
  initSuccess : Bool := false
  useOrcv2 : Bool := false
  vectorWidth : Nat := 0
  apiReleased : Bool := false
deriving DecidableEq

/-- `jitc_llvm_shutdown` (llvm_core.cpp lines 183-217): a no-op unless
`jitc_llvm_init_success` is set; otherwise tears state down, clears both
static flags, and ends by calling `jitc_llvm_api_shutdown`. -/
def jitc_llvm_shutdown (st : LlvmState) : LlvmState :=
  if !st.initSuccess then st
  else
    { st with
      vectorWidth := 0
      initSuccess := false
      initAttempted := false
      apiReleased := true }

/-- The vector width selected at llvm_core.cpp lines 120-127 from the host
feature string. -/
def llvmVectorWidth (env : LlvmEnv) : Nat :=
  let w := 1
  let w := if env.features.contains "+sse4.2" then 4 else w
  let w := if env.features.contains "+avx" then 8 else w
  if env.features.contains "+avx512vl" then 16 else w

/-- `jitc_llvm_init` (llvm_core.cpp lines 63-181) on the non-Apple
configuration.  Memoized by `jitc_llvm_init_attempted`.  Missing core API or
missing both pass builders release the API table directly and report
failure.  A missing `fma` feature (on non-aarch64) calls
`jitc_llvm_shutdown` and reports failure.  After the vector width is
selected, `jitc_llvm_init_success` is set iff the width exceeds 1; when it
does not, `jitc_llvm_shutdown` is called but — as in the source — the
function does not return there.  Finally an engine is picked: ORCv2 if its
group resolved and its init succeeds, else MCJIT likewise, else
`jitc_llvm_shutdown` and failure. -/
def jitc_llvm_init (env : LlvmEnv) (st0 : LlvmState) : LlvmState × Bool :=
  if st0.initAttempted then (st0, st0.initSuccess)
  else
    let st := { st0 with initAttempted := true }
    if !env.apiInitOk then (st, false)
    else if !jitc_llvm_api_has_core env.api then ({ st with apiReleased := true }, false)
    else if !jitc_llvm_api_has_pb_new env.api && !jitc_llvm_api_has_pb_legacy env.api then
      ({ st with apiReleased := true }, false)
    else if !env.aarch64 && !(env.features.contains "+fma") then
      (jitc_llvm_shutdown st, false)
    else
      let w := llvmVectorWidth env
      let st := { st with vectorWidth := w, initSuccess := decide (w > 1) }
      let st := if !decide (w > 1) then jitc_llvm_shutdown st else st
      if jitc_llvm_api_has_orcv2 env.api && env.orcv2InitOk then
        let st := { st with useOrcv2 := true }
        (st, st.initSuccess)
      else if jitc_llvm_api_has_mcjit env.api && env.mcjitInitOk then
        let st := { st with useOrcv2 := false }
        (st, st.initSuccess)
      else
        (jitc_llvm_shutdown st, false)

/-- The property claimed of `jitc_llvm_init` at one input: whenever a
required capability group is missing (core, both pass builders, or both
JIT-engine initializations), the call returns `false` and the API table has
been released. -/
def llvmInitClaimHolds (env : LlvmEnv) (st : LlvmState) : Bool :=
  let missingRequired :=
    !jitc_llvm_api_has_core env.api ||
    (!jitc_llvm_api_has_pb_new env.api && !jitc_llvm_api_has_pb_legacy env.api) ||
    (!(jitc_llvm_api_has_orcv2 env.api && env.orcv2InitOk) &&
     !(jitc_llvm_api_has_mcjit env.api && env.mcjitInitOk))
  let r := jitc_llvm_init env st
  !missingRequired || (!r.2 && r.1.apiReleased)

/-! ## Theorems -/

/-! ### Claim C10 -/

lemma scopeGuardMoveChain_calls (F : Type) (n : Nat) (g : ScopeGuard F) :
    (scopeGuardMoveChain F n g).2 = [] := by
  induction n generalizing g with
  | zero => rfl
  | succ n ih => simp [scopeGuardMoveChain, scopeGuardMove, ih]

/-- Claim C10: for every function object `f`, constructing a
`detail::scope_guard` from `f` through the `scope_guard` helper and letting
the guard be destroyed (after any number of moves) never invokes `f`: the
guard type declares no destructor that calls the stored function, so
scope-exit cleanup registered through this helper is never executed. -/
theorem scope_guard_never_invokes_function (F : Type) (f : F) (moves : Nat) :
    scopeGuardLifecycleCalls F f moves = [] := by
  simp [scopeGuardLifecycleCalls, scopeGuardConstruct, scopeGuardDestruct,
    scopeGuardMoveChain_calls]

/-! ### Claim C1 -/

/-- Claim C1 is false as stated: when the calling thread has no LLVM
ThreadState (`thread_state_llvm == nullptr`), `jit_sync_device()` skips the
CPU pass entirely, leaving another thread's registered CPU ThreadState with
its task still pending. -/
theorem sync_device_claim_fails_without_llvm_state :
    syncDeviceClaimHolds none none
      { tss := [{ id := 0, cuda := false, pending := true }], ctxPending := [] }
      = false := by
  decide

/-- Claim C1 (amended): after `jit_sync_device()` returns, all work on the
calling thread's current GPU device context has completed — unconditionally,
whenever such a context exists — and, provided the calling thread also has
an LLVM ThreadState, every registered CPU (non-CUDA) ThreadState in the
global list has been synchronized, no matter which thread issued that
work. -/
theorem sync_device_syncs_ctx_and_all_cpu_states
    (tsCuda tsLlvm : Option ThreadState) (st : SyncState) :
    (∀ t : ThreadState, tsCuda = some t →
      ((jit_sync_device_run tsCuda tsLlvm st).ctxPending.all
        (fun c => c ≠ t.context)) = true) ∧
    (tsLlvm.isSome = true → syncDeviceClaimHolds tsCuda tsLlvm st = true) := by
  constructor
  · intro t htc
    subst htc
    unfold jit_sync_device_run
    cases tsLlvm with
    | none =>
      simp only [List.all_eq_true]
      intro c hc
      simp only [List.mem_filter] at hc
      simpa using hc.2
    | some tl =>
      simp only [List.all_eq_true]
      intro c hc
      simp only [List.mem_filter] at hc
      simpa using hc.2
  · intro h
    match tsLlvm, h with
    | some tl, _ =>
      unfold syncDeviceClaimHolds jit_sync_device_run
      cases tsCuda with
      | none =>
        simp only [Bool.and_eq_true, List.all_eq_true]
        refine ⟨trivial, ?_⟩
        intro t ht
        simp only [List.mem_map] at ht
        obtain ⟨t0, _, rfl⟩ := ht
        by_cases hc : t0.cuda <;> simp [hc]
      | some tc =>
        simp only [Bool.and_eq_true, List.all_eq_true]
        constructor
        · intro c hc
          simp only [List.mem_filter] at hc
          simpa using hc.2
        · intro t ht
          simp only [List.mem_map] at ht
          obtain ⟨t0, _, rfl⟩ := ht
          by_cases hc : t0.cuda <;> simp [hc]

/-- Witness for the amended C1 theorem: the GPU conjunct exercised with no
LLVM ThreadState present, and the full property exercised when one is. -/
theorem sync_device_syncs_ctx_and_all_cpu_states_witness :
    ((jit_sync_device_run (some { id := 2, cuda := true, context := 7 }) none
        { tss := [{ id := 0, cuda := false, pending := true }],
          ctxPending := [7] }).ctxPending.all (fun c => c ≠ 7)) = true ∧
    syncDeviceClaimHolds (some { id := 2, cuda := true, context := 7 })
      (some { id := 1 })
      { tss := [{ id := 0, cuda := false, pending := true },
                { id := 2, cuda := true, context := 7, pending := true }],
        ctxPending := [7] } = true :=
  ⟨(sync_device_syncs_ctx_and_all_cpu_states
      (some { id := 2, cuda := true, context := 7 }) none
      { tss := [{ id := 0, cuda := false, pending := true }],
        ctxPending := [7] }).1 { id := 2, cuda := true, context := 7 } rfl,
   (sync_device_syncs_ctx_and_all_cpu_states
      (some { id := 2, cuda := true, context := 7 }) (some { id := 1 })
      { tss := [{ id := 0, cuda := false, pending := true },
                { id := 2, cuda := true, context := 7, pending := true }],
        ctxPending := [7] }).2 rfl⟩

/-! ### Claim C5 -/

/-- Claim C5: whenever a ThreadState is requested on a backend whose library
failed to load, `jit_init_thread_state` raises an error naming the override
environment variable (`ENOKI_LIBCUDA_PATH` for CUDA, `ENOKI_LIBLLVM_PATH`
for LLVM), the freshly allocated ThreadState is freed before the raise, the
global state is unchanged (nothing is appended to `state.tss`), and no
ThreadState is produced. -/
theorem init_thread_state_unavailable_backend_atomic
    (st : InitState) (freshId : Nat) :
    (st.has_cuda = false →
      jit_init_thread_state true st freshId =
        ([TSEvent.allocTS freshId, TSEvent.freeTS freshId,
          TSEvent.raiseError
            (RaiseMsg.cudaBackendInactive "ENOKI_LIBCUDA_PATH" "libcuda.so")],
         st, none)) ∧
    (st.has_llvm = false →
      jit_init_thread_state false st freshId =
        ([TSEvent.allocTS freshId, TSEvent.freeTS freshId,
          TSEvent.raiseError
            (RaiseMsg.llvmBackendInactive "ENOKI_LIBLLVM_PATH" "libLLVM.so")],
         st, none)) := by
  constructor <;> intro h <;> simp [jit_init_thread_state, h]

/-- Witness for C5: both backends unavailable in the default state. -/
theorem init_thread_state_unavailable_backend_atomic_witness :
    (jit_init_thread_state true {} 7 =
      ([TSEvent.allocTS 7, TSEvent.freeTS 7,
        TSEvent.raiseError
          (RaiseMsg.cudaBackendInactive "ENOKI_LIBCUDA_PATH" "libcuda.so")],
       {}, none)) ∧
    (jit_init_thread_state false {} 7 =
      ([TSEvent.allocTS 7, TSEvent.freeTS 7,
        TSEvent.raiseError
          (RaiseMsg.llvmBackendInactive "ENOKI_LIBLLVM_PATH" "libLLVM.so")],
       {}, none)) :=
  ⟨(init_thread_state_unavailable_backend_atomic {} 7).1 rfl,
   (init_thread_state_unavailable_backend_atomic {} 7).2 rfl⟩

/-! ### Claim C6 -/

lemma leakPass_empty_map (w : Bool) : leakPass w [] = ([], [], []) := by
  cases w <;> rfl

/-- Claim C6: on every shutdown in which the VariableMap is empty but the
CSE cache is non-empty, the consistency check is fatal: every stale CSE
entry is logged (the `fatalCseLeak` outcome carries them all) and the
process terminates through `jit_fail` instead of returning normally.  The
check does not depend on the log level. -/
theorem shutdown_cse_leak_fatal (st : ShutdownState)
    (hv : st.vars = []) (hc : st.cse_cache ≠ []) :
    (jit_shutdown_leak_check st).outcome =
      ShutdownOutcome.fatalCseLeak st.cse_cache ∧
    (jit_shutdown_leak_check st).outcome ≠ ShutdownOutcome.normal := by
  have h1 : (jit_shutdown_leak_check st).outcome =
      ShutdownOutcome.fatalCseLeak st.cse_cache := by
    unfold jit_shutdown_leak_check
    rw [hv, leakPass_empty_map]
    simp [jit_shutdown_consistency, hc]
  exact ⟨h1, by rw [h1]; intro h; cases h⟩

/-- Witness for C6 at a concrete shutdown state. -/
theorem shutdown_cse_leak_fatal_witness :
    (jit_shutdown_leak_check
        { vars := [], cse_cache := [({ dep := [1, 2, 0, 0] }, 7)] }).outcome =
      ShutdownOutcome.fatalCseLeak [({ dep := [1, 2, 0, 0] }, 7)] ∧
    (jit_shutdown_leak_check
        { vars := [], cse_cache := [({ dep := [1, 2, 0, 0] }, 7)] }).outcome ≠
      ShutdownOutcome.normal :=
  shutdown_cse_leak_fatal
    { vars := [], cse_cache := [({ dep := [1, 2, 0, 0] }, 7)] } rfl (by decide)

/-! ### Claim C3 -/

lemma syncThreadWaits_are_waits (ts : Option ThreadState) :
    ∀ e ∈ syncThreadWaits ts, isWaitEv e = true := by
  intro e he
  cases ts with
  | none => cases he
  | some t =>
    simp only [syncThreadWaits] at he
    by_cases hc : t.cuda <;> simp [hc] at he <;> simp [he, isWaitEv]

lemma flatten_syncThreadWaits_are_waits (l : List ThreadState) :
    ∀ e ∈ List.flatten (l.map (fun t => syncThreadWaits (some t))),
      isWaitEv e = true := by
  intro e he
  simp only [List.mem_flatten, List.mem_map] at he
  obtain ⟨blk, ⟨t, _, rfl⟩, hmem⟩ := he
  exact syncThreadWaits_are_waits (some t) e hmem

lemma waitsUnlocked_append_waits (evs rest : List SyncEv)
    (h : ∀ e ∈ evs, isWaitEv e = true) :
    waitsUnlocked false (evs ++ rest) = waitsUnlocked false rest := by
  induction evs with
  | nil => rfl
  | cons e t ih =>
    have he : isWaitEv e = true := h e (List.mem_cons_self e t)
    have ht : ∀ x ∈ t, isWaitEv x = true := fun x hx => h x (List.mem_cons_of_mem e hx)
    cases e <;> simp [isWaitEv] at he <;> simp [waitsUnlocked, ih ht]

lemma snapshotsLocked_append_waits (b : Bool) (evs rest : List SyncEv)
    (h : ∀ e ∈ evs, isWaitEv e = true) :
    snapshotsLocked b (evs ++ rest) = snapshotsLocked b rest := by
  induction evs with
  | nil => rfl
  | cons e t ih =>
    have he : isWaitEv e = true := h e (List.mem_cons_self e t)
    have ht : ∀ x ∈ t, isWaitEv x = true := fun x hx => h x (List.mem_cons_of_mem e hx)
    cases e <;> simp [isWaitEv] at he <;> simp [snapshotsLocked, ih ht]

lemma lockStateAfter_append_waits (b : Bool) (evs rest : List SyncEv)
    (h : ∀ e ∈ evs, isWaitEv e = true) :
    lockStateAfter b (evs ++ rest) = lockStateAfter b rest := by
  induction evs with
  | nil => rfl
  | cons e t ih =>
    have he : isWaitEv e = true := h e (List.mem_cons_self e t)
    have ht : ∀ x ∈ t, isWaitEv x = true := fun x hx => h x (List.mem_cons_of_mem e hx)
    cases e <;> simp [isWaitEv] at he <;> simp [lockStateAfter, ih ht]

/-- Claim C3: no sync operation holds the global mutex while blocking.  For
every configuration of thread-local states and of the global ThreadState
list, each of `jit_sync_thread()`, `jit_sync_device()` and
`jit_sync_all_devices()` — entered with `state.mutex` held — performs every
blocking wait with the mutex released, takes every ThreadState-list snapshot
while the mutex is still held (before the release that precedes the blocking
iteration), and ends with the mutex re-acquired. -/
theorem sync_ops_release_mutex_while_blocking
    (tsCuda tsLlvm : Option ThreadState) (tss : List ThreadState) :
    (waitsUnlocked true (jit_sync_thread_trace tsCuda tsLlvm) = true ∧
     snapshotsLocked true (jit_sync_thread_trace tsCuda tsLlvm) = true ∧
     lockStateAfter true (jit_sync_thread_trace tsCuda tsLlvm) = true) ∧
    (waitsUnlocked true (jit_sync_device_trace tsCuda tsLlvm tss) = true ∧
     snapshotsLocked true (jit_sync_device_trace tsCuda tsLlvm tss) = true ∧
     lockStateAfter true (jit_sync_device_trace tsCuda tsLlvm tss) = true) ∧
    (waitsUnlocked true (jit_sync_all_devices_trace tss) = true ∧
     snapshotsLocked true (jit_sync_all_devices_trace tss) = true ∧
     lockStateAfter true (jit_sync_all_devices_trace tss) = true) := by
  have hw1 := syncThreadWaits_are_waits tsCuda
  have hw2 := syncThreadWaits_are_waits tsLlvm
  have hwAll := flatten_syncThreadWaits_are_waits tss
  have hwFil := flatten_syncThreadWaits_are_waits (tss.filter (fun t => !t.cuda))
  refine ⟨⟨?_, ?_, ?_⟩, ⟨?_, ?_, ?_⟩, ⟨?_, ?_, ?_⟩⟩
  · show waitsUnlocked false
      ((syncThreadWaits tsCuda ++ syncThreadWaits tsLlvm) ++ [SyncEv.lock]) = true
    rw [List.append_assoc, waitsUnlocked_append_waits _ _ hw1,
      waitsUnlocked_append_waits _ _ hw2]
    rfl
  · show snapshotsLocked false
      ((syncThreadWaits tsCuda ++ syncThreadWaits tsLlvm) ++ [SyncEv.lock]) = true
    rw [List.append_assoc, snapshotsLocked_append_waits _ _ _ hw1,
      snapshotsLocked_append_waits _ _ _ hw2]
    rfl
  · show lockStateAfter false
      ((syncThreadWaits tsCuda ++ syncThreadWaits tsLlvm) ++ [SyncEv.lock]) = true
    rw [List.append_assoc, lockStateAfter_append_waits _ _ _ hw1,
      lockStateAfter_append_waits _ _ _ hw2]
    rfl
  · cases tsCuda with
    | none =>
      cases tsLlvm with
      | none => rfl
      | some tl =>
        show waitsUnlocked false
          (List.flatten ((tss.filter (fun t => !t.cuda)).map
            (fun t => syncThreadWaits (some t))) ++ [SyncEv.lock]) = true
        rw [waitsUnlocked_append_waits _ _ hwFil]
        rfl
    | some tc =>
      cases tsLlvm with
      | none => rfl
      | some tl =>
        show waitsUnlocked false
          (List.flatten ((tss.filter (fun t => !t.cuda)).map
            (fun t => syncThreadWaits (some t))) ++ [SyncEv.lock]) = true
        rw [waitsUnlocked_append_waits _ _ hwFil]
        rfl
  · cases tsCuda with
    | none =>
      cases tsLlvm with
      | none => rfl
      | some tl =>
        show snapshotsLocked false
          (List.flatten ((tss.filter (fun t => !t.cuda)).map
            (fun t => syncThreadWaits (some t))) ++ [SyncEv.lock]) = true
        rw [snapshotsLocked_append_waits _ _ _ hwFil]
        rfl
    | some tc =>
      cases tsLlvm with
      | none => rfl
      | some tl =>
        show snapshotsLocked false
          (List.flatten ((tss.filter (fun t => !t.cuda)).map
            (fun t => syncThreadWaits (some t))) ++ [SyncEv.lock]) = true
        rw [snapshotsLocked_append_waits _ _ _ hwFil]
        rfl
  · cases tsCuda with
    | none =>
      cases tsLlvm with
      | none => rfl
      | some tl =>
        show lockStateAfter false
          (List.flatten ((tss.filter (fun t => !t.cuda)).map
            (fun t => syncThreadWaits (some t))) ++ [SyncEv.lock]) = true
        rw [lockStateAfter_append_waits _ _ _ hwFil]
        rfl
    | some tc =>
      cases tsLlvm with
      | none => rfl
      | some tl =>
        show lockStateAfter false
          (List.flatten ((tss.filter (fun t => !t.cuda)).map
            (fun t => syncThreadWaits (some t))) ++ [SyncEv.lock]) = true
        rw [lockStateAfter_append_waits _ _ _ hwFil]
        rfl
  · show waitsUnlocked false
      (List.flatten (tss.map (fun t => syncThreadWaits (some t))) ++ [SyncEv.lock]) = true
    rw [waitsUnlocked_append_waits _ _ hwAll]
    rfl
  · show snapshotsLocked false
      (List.flatten (tss.map (fun t => syncThreadWaits (some t))) ++ [SyncEv.lock]) = true
    rw [snapshotsLocked_append_waits _ _ _ hwAll]
    rfl
  · show lockStateAfter false
      (List.flatten (tss.map (fun t => syncThreadWaits (some t))) ++ [SyncEv.lock]) = true
    rw [lockStateAfter_append_waits _ _ _ hwAll]
    rfl

/-! ### Claim C2 -/

def isLeakReport : LogEv → Bool
  | LogEv.leakReport _ _ _ => true
  | _ => false

def isSkipNotice : LogEv → Bool
  | LogEv.skipRemainder => true
  | _ => false

lemma leakReportLoop_countP_reports (vars : VarMap) :
    ∀ n, (leakReportLoop n vars).countP isLeakReport = min vars.length (10 - n) := by
  induction vars with
  | nil => intro n; simp [leakReportLoop]
  | cons kv rest ih =>
    intro n
    obtain ⟨i, v⟩ := kv
    simp only [leakReportLoop, List.countP_append, ih (n + 1), List.length_cons]
    by_cases h0 : n = 0 <;> by_cases h1 : n < 10 <;> by_cases h2 : n = 10
    all_goals
      first
      | omega
      | (simp only [h0, h1, h2, if_true, if_false, List.countP_cons,
          List.countP_nil, isLeakReport, ite_true, ite_false]
         first
         | omega
         | (split_ifs <;>
             simp_all [isLeakReport, List.countP_cons, List.countP_nil] <;> omega))

lemma leakReportLoop_countP_skip (vars : VarMap) :
    ∀ n, (leakReportLoop n vars).countP isSkipNotice =
      if n ≤ 10 ∧ vars.length + n > 10 then 1 else 0 := by
  induction vars with
  | nil => intro n; simp only [leakReportLoop, List.countP_nil, List.length_nil]; split_ifs <;> omega
  | cons kv rest ih =>
    intro n
    obtain ⟨i, v⟩ := kv
    simp only [leakReportLoop, List.countP_append, ih (n + 1), List.length_cons]
    by_cases h0 : n = 0 <;> by_cases h1 : n < 10 <;> by_cases h2 : n = 10
    all_goals
      first
      | omega
      | (simp only [h0, h1, h2, if_true, if_false, List.countP_cons,
          List.countP_nil, isSkipNotice, ite_true, ite_false]
         first
         | omega
         | (split_ifs <;>
             simp_all [isSkipNotice, List.countP_cons, List.countP_nil] <;> omega))

/-- Claim C2 is false as stated: when both log sinks are below Warn
(here at the Error level), shutting down with a live scatter variable whose
only reference is external performs no decrement and emits no leak report or
summary at all — the leak pass does not run on every shutdown. -/
theorem shutdown_leak_pass_skipped_below_warn :
    ¬ ((jit_shutdown_leak_check
          { vars := [(1, { scatter := true, ref_count_ext := 1 })] }).decremented
            = [1] ∧
       (jit_shutdown_leak_check
          { vars := [(1, { scatter := true, ref_count_ext := 1 })] }).logs ≠ []) := by
  decide

/-- Claim C2 (amended): on every shutdown whose effective log level reaches
Warn, the leak pass runs: it decrements the external reference of exactly
those variables that carry the scatter flag and whose only remaining
reference is external (ext = 1, int = 0); the variable map is updated by
those decrements; the still-live variables are then reported with at most 10
individual reports, a single skip notice exactly when more than 10 leaked,
and a closing summary line carrying the total leaked count whenever at least
one variable leaked (and no output at all when none did). -/
theorem shutdown_leak_pass_warn_behavior (st : ShutdownState)
    (hw : warnLevelEnabled st.log_level_stderr st.log_level_callback = true) :
    (jit_shutdown_leak_check st).decremented = scatterLeakIds st.vars ∧
    (jit_shutdown_leak_check st).varsAfter =
      (scatterLeakIds st.vars).foldl jit_var_dec_ref_ext st.vars ∧
    (jit_shutdown_leak_check st).logs.countP isLeakReport =
      min (jit_shutdown_leak_check st).varsAfter.length 10 ∧
    (jit_shutdown_leak_check st).logs.countP isSkipNotice =
      (if (jit_shutdown_leak_check st).varsAfter.length > 10 then 1 else 0) ∧
    ((jit_shutdown_leak_check st).varsAfter.length > 0 →
      (jit_shutdown_leak_check st).logs =
        leakReportLoop 0 (jit_shutdown_leak_check st).varsAfter ++
          [LogEv.leakSummary (jit_shutdown_leak_check st).varsAfter.length]) ∧
    ((jit_shutdown_leak_check st).varsAfter.length = 0 →
      (jit_shutdown_leak_check st).logs = []) := by
  have hdec : (jit_shutdown_leak_check st).decremented = scatterLeakIds st.vars := by
    unfold jit_shutdown_leak_check
    rw [hw]
    rfl
  have hvars : (jit_shutdown_leak_check st).varsAfter = leakVarsAfter st.vars := by
    unfold jit_shutdown_leak_check
    rw [hw]
    rfl
  have hlogs : (jit_shutdown_leak_check st).logs = leakLogs st.vars := by
    unfold jit_shutdown_leak_check
    rw [hw]
    rfl
  rw [hdec, hvars, hlogs]
  refine ⟨rfl, rfl, ?_, ?_, ?_, ?_⟩
  · rw [leakLogs, List.countP_append, leakReportLoop_countP_reports]
    split_ifs <;> simp [isLeakReport, List.countP_cons, List.countP_nil]
  · rw [leakLogs, List.countP_append, leakReportLoop_countP_skip]
    split_ifs <;> simp [List.countP_cons, List.countP_nil, isSkipNotice] <;> omega
  · intro hpos
    rw [leakLogs, if_pos hpos]
  · intro hzero
    rw [List.length_eq_zero] at hzero
    rw [leakLogs, hzero]
    simp [leakReportLoop, hzero]

/-- Witness for the amended C2 theorem: a Warn-level shutdown with one
leaked scatter variable and one ordinarily leaked variable. -/
theorem shutdown_leak_pass_warn_behavior_witness :
    (jit_shutdown_leak_check
        { vars := [(1, { scatter := true, ref_count_ext := 1 }),
                   (2, { ref_count_ext := 2 })],
          log_level_stderr := LogLevel.Warn }).decremented = [1] ∧
    (jit_shutdown_leak_check
        { vars := [(1, { scatter := true, ref_count_ext := 1 }),
                   (2, { ref_count_ext := 2 })],
          log_level_stderr := LogLevel.Warn }).logs.countP isLeakReport = 1 :=
  have h := shutdown_leak_pass_warn_behavior
    { vars := [(1, { scatter := true, ref_count_ext := 1 }),
               (2, { ref_count_ext := 2 })],
      log_level_stderr := LogLevel.Warn } rfl
  ⟨h.1.trans (by decide), (h.2.2.1).trans (by decide)⟩

/-! ### Claim C7 -/

def isFatalCall : CudaCall → Bool
  | CudaCall.fatalCudaError _ _ => true
  | _ => false

lemma p2pPairTrace_no_abort (canPeer : Nat → Nat → Bool)
    (enable : Nat → Nat → PeerEnableResult) (a b : Device)
    (h : enable a.id b.id ≠ PeerEnableResult.otherError) :
    (p2pPairTrace canPeer enable a b).2 = false := by
  unfold p2pPairTrace
  by_cases hid : a.id = b.id
  · simp [hid]
  · by_cases hp : canPeer a.id b.id <;>
      rcases he : enable a.id b.id <;> simp [hid, hp, he] <;> exact h he

lemma p2pPairTrace_no_fatal (canPeer : Nat → Nat → Bool)
    (enable : Nat → Nat → PeerEnableResult) (a b : Device)
    (h : enable a.id b.id ≠ PeerEnableResult.otherError) :
    ∀ e ∈ (p2pPairTrace canPeer enable a b).1, isFatalCall e = false := by
  unfold p2pPairTrace
  by_cases hid : a.id = b.id
  · simp [hid]
  · by_cases hp : canPeer a.id b.id <;>
      rcases he : enable a.id b.id <;>
      simp [hid, hp, he, isFatalCall] <;> exact absurd he h

lemma mem_p2pPairTrace_canAccess (canPeer : Nat → Nat → Bool)
    (enable : Nat → Nat → PeerEnableResult) (a b : Device)
    (hid : a.id ≠ b.id) :
    CudaCall.canAccessPeer a.id b.id ∈ (p2pPairTrace canPeer enable a b).1 := by
  unfold p2pPairTrace
  by_cases hp : canPeer a.id b.id <;>
    rcases he : enable a.id b.id <;> simp [hid, hp, he]

lemma mem_p2pPairTrace_enable (canPeer : Nat → Nat → Bool)
    (enable : Nat → Nat → PeerEnableResult) (a b : Device)
    (hid : a.id ≠ b.id) (hp : canPeer a.id b.id = true) :
    CudaCall.enablePeerAccess a.id b.id ∈ (p2pPairTrace canPeer enable a b).1 := by
  unfold p2pPairTrace
  rcases he : enable a.id b.id <;> simp [hid, hp, he]

lemma runPairs_no_abort (f : Device → Device → List CudaCall × Bool)
    (ps : List (Device × Device)) (h : ∀ p ∈ ps, (f p.1 p.2).2 = false) :
    runPairs f ps = ((ps.map (fun p => (f p.1 p.2).1)).flatten, false) := by
  induction ps with
  | nil => rfl
  | cons p rest ih =>
    have hp := h p (List.mem_cons_self p rest)
    have hrest : ∀ q ∈ rest, (f q.1 q.2).2 = false :=
      fun q hq => h q (List.mem_cons_of_mem p hq)
    simp only [runPairs, hp, Bool.false_eq_true, if_false, ih hrest,
      List.map_cons, List.flatten_cons]

lemma mem_devicePairs (ds : List Device) (a b : Device)
    (ha : a ∈ ds) (hb : b ∈ ds) : (a, b) ∈ devicePairs ds := by
  simp only [devicePairs, List.mem_flatMap, List.mem_map]
  exact ⟨a, ha, b, hb, rfl⟩

/-- Claim C7: in `jit_init`, provided no `cuCtxEnablePeerAccess` call fails
with an error other than "already enabled", peer accessibility is queried
for every ordered pair of distinct accepted devices; whenever the query
reports support, peer access to the second device's context is enabled from
within the first device's context; an "already enabled" result is treated as
success: the loop continues and no fatal CUDA error is raised anywhere. -/
theorem init_p2p_matrix_query_enable_idempotent
    (canPeer : Nat → Nat → Bool) (enable : Nat → Nat → PeerEnableResult)
    (ds : List Device)
    (hnoerr : ∀ a b : Nat, enable a b ≠ PeerEnableResult.otherError) :
    (∀ a ∈ ds, ∀ b ∈ ds, a.id ≠ b.id →
      CudaCall.canAccessPeer a.id b.id ∈ (jit_init_p2p canPeer enable ds).1) ∧
    (∀ a ∈ ds, ∀ b ∈ ds, a.id ≠ b.id → canPeer a.id b.id = true →
      CudaCall.enablePeerAccess a.id b.id ∈ (jit_init_p2p canPeer enable ds).1) ∧
    (jit_init_p2p canPeer enable ds).2 = false ∧
    (∀ e ∈ (jit_init_p2p canPeer enable ds).1, isFatalCall e = false) := by
  have hall : ∀ p ∈ devicePairs ds,
      (p2pPairTrace canPeer enable p.1 p.2).2 = false :=
    fun p _ => p2pPairTrace_no_abort canPeer enable p.1 p.2 (hnoerr _ _)
  have hrun : jit_init_p2p canPeer enable ds =
      (((devicePairs ds).map
        (fun p => (p2pPairTrace canPeer enable p.1 p.2).1)).flatten, false) :=
    runPairs_no_abort _ _ hall
  refine ⟨?_, ?_, ?_, ?_⟩
  · intro a ha b hb hid
    rw [hrun]
    simp only [List.mem_flatten, List.mem_map]
    exact ⟨(p2pPairTrace canPeer enable a b).1,
      ⟨(a, b), mem_devicePairs ds a b ha hb, rfl⟩,
      mem_p2pPairTrace_canAccess canPeer enable a b hid⟩
  · intro a ha b hb hid hp
    rw [hrun]
    simp only [List.mem_flatten, List.mem_map]
    exact ⟨(p2pPairTrace canPeer enable a b).1,
      ⟨(a, b), mem_devicePairs ds a b ha hb, rfl⟩,
      mem_p2pPairTrace_enable canPeer enable a b hid hp⟩
  · rw [hrun]
  · intro e he
    rw [hrun] at he
    simp only [List.mem_flatten, List.mem_map] at he
    obtain ⟨blk, ⟨p, _, rfl⟩, hmem⟩ := he
    exact p2pPairTrace_no_fatal canPeer enable p.1 p.2 (hnoerr _ _) e hmem

/-- Witness for C7: two devices, both directions peer-capable, the driver
reporting "already enabled" everywhere. -/
theorem init_p2p_matrix_witness :
    CudaCall.canAccessPeer 0 1 ∈
      (jit_init_p2p (fun _ _ => true) (fun _ _ => PeerEnableResult.alreadyEnabled)
        [{ id := 0, context := 10 }, { id := 1, context := 11 }]).1 ∧
    CudaCall.enablePeerAccess 1 0 ∈
      (jit_init_p2p (fun _ _ => true) (fun _ _ => PeerEnableResult.alreadyEnabled)
        [{ id := 0, context := 10 }, { id := 1, context := 11 }]).1 ∧
    (jit_init_p2p (fun _ _ => true) (fun _ _ => PeerEnableResult.alreadyEnabled)
        [{ id := 0, context := 10 }, { id := 1, context := 11 }]).2 = false :=
  have h := init_p2p_matrix_query_enable_idempotent (fun _ _ => true)
    (fun _ _ => PeerEnableResult.alreadyEnabled)
    [{ id := 0, context := 10 }, { id := 1, context := 11 }]
    (fun _ _ h => PeerEnableResult.noConfusion h)
  ⟨h.1 { id := 0, context := 10 } (by decide) { id := 1, context := 11 }
      (by decide) (by decide),
   h.2.1 { id := 1, context := 11 } (by decide) { id := 0, context := 10 }
      (by decide) (by decide) rfl,
   h.2.2.1⟩

/-! ### Claim C8 -/

/-- Claim C8 is false as stated: when the host reports no vector ISA beyond
the baseline (feature string only `+fma`), `jitc_llvm_init_success` is left
unset, so the `jitc_llvm_shutdown()` issued when both ORCv2 and MCJIT fail
to initialize returns immediately without releasing the API table, although
the function still returns `false`. -/
theorem llvm_init_missing_jit_api_table_not_released :
    llvmInitClaimHolds
      { apiInitOk := true
        api := { coreSyms := [true], pbNewSyms := [true], pbLegacySyms := [false],
                 orcv2Syms := [true], mcjitSyms := [true] }
        features := ["+fma"]
        aarch64 := false
        orcv2InitOk := false
        mcjitInitOk := false } {} = false := by
  decide

/-- Claim C8 (amended): each capability predicate is true only when every
symbol of its group resolved; a missing core group, or missing both pass
builders, releases the API table and returns `false`; and when both the
ORCv2 and the MCJIT initialization are unavailable, *provided the earlier
checks passed and a vector ISA was found* (so `jitc_llvm_init_success` was
set when the engine selection ran), the backend is shut down cleanly with
the API table released and `false` is returned.  Without a vector ISA the
final shutdown is a no-op and the table stays resident. -/
theorem llvm_init_missing_capability_clean_shutdown (env : LlvmEnv)
    (st : LlvmState) (hatt : st.initAttempted = false)
    (happi : env.apiInitOk = true) :
    (jitc_llvm_api_has_core env.api = true → ∀ s ∈ env.api.coreSyms, s = true) ∧
    (jitc_llvm_api_has_pb_new env.api = true → ∀ s ∈ env.api.pbNewSyms, s = true) ∧
    (jitc_llvm_api_has_pb_legacy env.api = true →
      ∀ s ∈ env.api.pbLegacySyms, s = true) ∧
    (jitc_llvm_api_has_orcv2 env.api = true → ∀ s ∈ env.api.orcv2Syms, s = true) ∧
    (jitc_llvm_api_has_mcjit env.api = true → ∀ s ∈ env.api.mcjitSyms, s = true) ∧
    (jitc_llvm_api_has_core env.api = false →
      jitc_llvm_init env st =
        ({ st with initAttempted := true, apiReleased := true }, false)) ∧
    (jitc_llvm_api_has_core env.api = true →
      jitc_llvm_api_has_pb_new env.api = false →
      jitc_llvm_api_has_pb_legacy env.api = false →
      jitc_llvm_init env st =
        ({ st with initAttempted := true, apiReleased := true }, false)) ∧
    ((jitc_llvm_api_has_orcv2 env.api && env.orcv2InitOk) = false →
      (jitc_llvm_api_has_mcjit env.api && env.mcjitInitOk) = false →
      jitc_llvm_api_has_core env.api = true →
      (jitc_llvm_api_has_pb_new env.api || jitc_llvm_api_has_pb_legacy env.api)
        = true →
      (!env.aarch64 && !(env.features.contains "+fma")) = false →
      llvmVectorWidth env > 1 →
      (jitc_llvm_init env st).2 = false ∧
      (jitc_llvm_init env st).1.apiReleased = true ∧
      (jitc_llvm_init env st).1.initSuccess = false) := by
  refine ⟨?_, ?_, ?_, ?_, ?_, ?_, ?_, ?_⟩
  · intro h s hs
    exact (List.all_eq_true.mp h) s hs
  · intro h s hs
    exact (List.all_eq_true.mp h) s hs
  · intro h s hs
    exact (List.all_eq_true.mp h) s hs
  · intro h s hs
    exact (List.all_eq_true.mp h) s hs
  · intro h s hs
    exact (List.all_eq_true.mp h) s hs
  · intro hcore
    simp [jitc_llvm_init, hatt, happi, hcore]
  · intro hcore hnew hlegacy
    simp [jitc_llvm_init, hatt, happi, hcore, hnew, hlegacy]
  · intro ho hm hcore hpb hfma hw
    have hpbc : (!jitc_llvm_api_has_pb_new env.api &&
        !jitc_llvm_api_has_pb_legacy env.api) = false := by
      rcases Bool.or_eq_true_iff.mp hpb with h | h <;> simp [h]
    have hsucc : decide (llvmVectorWidth env > 1) = true := decide_eq_true hw
    simp only [jitc_llvm_init, hatt, happi, hcore, hpbc, hfma, ho, hm, hsucc,
      Bool.not_true, Bool.false_eq_true, if_false, ite_false, Bool.not_false,
      ite_true, jitc_llvm_shutdown]
    simp [jitc_llvm_shutdown]

/-- Witness for the amended C8 theorem: a table whose core group failed to
resolve is released and the call reports failure. -/
theorem llvm_init_missing_capability_witness :
    jitc_llvm_init { apiInitOk := true, api := { coreSyms := [false] } } {} =
      ({ initAttempted := true, apiReleased := true }, false) :=
  ((llvm_init_missing_capability_clean_shutdown
      { apiInitOk := true, api := { coreSyms := [false] } } {} rfl rfl).2.2.2.2.2.1)
    (by decide)

/-! ### Claims C4 and C9 -/

lemma insertByLt_perm {α : Type} (lt : α → α → Bool) (x : α) (l : List α) :
    (insertByLt lt x l).Perm (x :: l) := by
  induction l with
  | nil => exact List.Perm.refl _
  | cons y ys ih =>
    unfold insertByLt
    by_cases h : lt x y
    · simp [h]
    · simp only [h, Bool.false_eq_true, if_false, ite_false]
      exact (ih.cons y).trans (List.Perm.swap x y ys)

lemma sortByLt_perm {α : Type} (lt : α → α → Bool) (l : List α) :
    (sortByLt lt l).Perm l := by
  induction l with
  | nil => exact List.Perm.refl _
  | cons x xs ih => exact (insertByLt_perm lt x (sortByLt lt xs)).trans (ih.cons x)

lemma skipEqNonDigit_append (p a b : List Char)
    (hp : ∀ c ∈ p, c.isDigit = false) :
    skipEqNonDigit (p ++ a) (p ++ b) = skipEqNonDigit a b := by
  induction p with
  | nil => rfl
  | cons c cs ih =>
    have hc : c.isDigit = false := hp c (List.mem_cons_self c cs)
    have hcs : ∀ x ∈ cs, x.isDigit = false :=
      fun x hx => hp x (List.mem_cons_of_mem c hx)
    simp only [List.cons_append, skipEqNonDigit, hc, Bool.false_eq_true,
      not_false_iff, and_true, if_true, ite_true]
    exact ih hcs

lemma parseDigits_append (da s : List Char) (acc : Nat)
    (hda : ∀ c ∈ da, c.isDigit = true)
    (hs : ∀ c ∈ s.take 1, c.isDigit = false) :
    parseDigits (da ++ s) acc =
      (da.foldl (fun a c => a * 10 + (c.toNat - '0'.toNat)) acc, s) := by
  induction da generalizing acc with
  | nil =>
    simp only [List.nil_append, List.foldl_nil]
    cases s with
    | nil => rfl
    | cons c cs =>
      have hc : c.isDigit = false := hs c (by simp)
      simp [parseDigits, hc]
  | cons d ds ih =>
    have hd : d.isDigit = true := hda d (List.mem_cons_self d ds)
    simp only [List.cons_append, parseDigits, hd, ite_true, List.foldl_cons]
    exact ih _ (fun c hc => hda c (List.mem_cons_of_mem d hc))

/-- The comparator orders two strings that agree on a digit-free prefix and
then both carry maximal digit runs by comparing the runs through their
`int`-narrowed `strtol` values, exactly as `int ai = strtol(a, &ap, 10)`
does in the source. -/
lemma verLt_digit_runs (p da db s t : List Char)
    (hp : ∀ c ∈ p, c.isDigit = false)
    (hda : da ≠ []) (hdb : db ≠ [])
    (hdad : ∀ c ∈ da, c.isDigit = true) (hdbd : ∀ c ∈ db, c.isDigit = true)
    (hs : ∀ c ∈ s.take 1, c.isDigit = false)
    (ht : ∀ c ∈ t.take 1, c.isDigit = false)
    (hne : strtolInt (digitsVal da) ≠ strtolInt (digitsVal db)) :
    verLt (p ++ da ++ s) (p ++ db ++ t) =
      decide (strtolInt (digitsVal da) < strtolInt (digitsVal db)) := by
  cases da with
  | nil => exact absurd rfl hda
  | cons d1 da1 =>
    cases db with
    | nil => exact absurd rfl hdb
    | cons d2 db1 =>
      have hd1 : d1.isDigit = true := hdad d1 (List.mem_cons_self d1 da1)
      have hd2 : d2.isDigit = true := hdbd d2 (List.mem_cons_self d2 db1)
      rw [List.append_assoc p (d1 :: da1) s, List.append_assoc p (d2 :: db1) t]
      unfold verLt
      simp only [verLtFuel]
      rw [skipEqNonDigit_append p _ _ hp]
      have hskip : skipEqNonDigit (d1 :: (da1 ++ s)) (d2 :: (db1 ++ t)) =
          (d1 :: (da1 ++ s), d2 :: (db1 ++ t)) := by
        simp only [skipEqNonDigit]
        rw [if_neg]
        intro hcontra
        rw [hd1] at hcontra
        exact hcontra.2 rfl
      simp only [List.cons_append] at hskip ⊢
      rw [hskip]
      simp only
      rw [if_pos ⟨hd1, hd2⟩]
      have hpa := parseDigits_append (d1 :: da1) s 0 hdad hs
      have hpb := parseDigits_append (d2 :: db1) t 0 hdbd ht
      simp only [List.cons_append] at hpa hpb
      rw [hpa, hpb]
      simp only [digitsVal] at hne ⊢
      rw [if_pos hne]

lemma strtolInt_small (v : Nat) (h : v < 2 ^ 31) : strtolInt v = (v : Int) := by
  unfold strtolInt strtolLong intOfLong
  have h1 : v ≤ 2 ^ 63 - 1 := by omega
  rw [min_eq_left h1]
  have h2 : v % 2 ^ 32 = v := Nat.mod_eq_of_lt (by omega)
  rw [h2, if_pos h]

/-- For digit runs whose values both fit in a C `int`, the comparator's
order coincides with the true numeric order of the runs. -/
lemma verLt_digit_runs_small (p da db s t : List Char)
    (hp : ∀ c ∈ p, c.isDigit = false)
    (hda : da ≠ []) (hdb : db ≠ [])
    (hdad : ∀ c ∈ da, c.isDigit = true) (hdbd : ∀ c ∈ db, c.isDigit = true)
    (hs : ∀ c ∈ s.take 1, c.isDigit = false)
    (ht : ∀ c ∈ t.take 1, c.isDigit = false)
    (hsa : digitsVal da < 2 ^ 31) (hsb : digitsVal db < 2 ^ 31)
    (hne : digitsVal da ≠ digitsVal db) :
    verLt (p ++ da ++ s) (p ++ db ++ t) = decide (digitsVal da < digitsVal db) := by
  have hca := strtolInt_small (digitsVal da) hsa
  have hcb := strtolInt_small (digitsVal db) hsb
  have hne2 : strtolInt (digitsVal da) ≠ strtolInt (digitsVal db) := by
    rw [hca, hcb]
    exact fun hcast => hne (Nat.cast_injective hcast)
  rw [verLt_digit_runs p da db s t hp hda hdb hdad hdbd hs ht hne2, hca, hcb]
  exact decide_eq_decide.mpr Nat.cast_lt

/-- When the first mismatch after a digit-free common prefix is not between
two digits, the comparator falls back to plain lexicographic `strcmp`. -/
lemma verLt_lex_fallback (p : List Char) (cs ct : Char) (s1 t1 : List Char)
    (hp : ∀ c ∈ p, c.isDigit = false)
    (hcne : cs ≠ ct) (hnd : (cs.isDigit && ct.isDigit) = false) :
    verLt (p ++ cs :: s1) (p ++ ct :: t1) = strcmpLt (cs :: s1) (ct :: t1) := by
  unfold verLt
  simp only [verLtFuel]
  rw [skipEqNonDigit_append p _ _ hp]
  have hskip : skipEqNonDigit (cs :: s1) (ct :: t1) = (cs :: s1, ct :: t1) := by
    simp only [skipEqNonDigit]
    rw [if_neg]
    intro hcontra
    exact hcne hcontra.1
  rw [hskip]
  simp only
  rw [if_neg]
  intro hcontra
  rw [hcontra.1, hcontra.2] at hnd
  exact Bool.noConfusion hnd

/-- Claim C4 is false as stated: digit runs do not always compare by their
mathematical value.  `strtol`'s result is stored into an `int`
(init.cpp line 479), so the run `2147483648` narrows to `-2147483648` and
the comparator puts `"a2147483648"` *below* `"a1"`, while the claimed
numeric order puts `"a1"` first. -/
theorem verLt_wraps_large_digit_runs :
    ¬ (verLt ("a1".toList) ("a2147483648".toList) =
        decide (digitsVal "1".toList < digitsVal "2147483648".toList)) := by
  decide

/-- Claim C4 (amended): with the override environment variable unset and the
glob producing more than one candidate (after `dlopen(fname)` itself failed,
which is what makes the glob run), `jit_find_library` sorts the candidates
with the natural version comparator — under which maximal digit runs compare
through their `int`-narrowed `strtol` values (coinciding with true numeric
order whenever both runs fit below `2^31`; larger runs wrap) and other
mismatches compare lexicographically — obtaining a permutation of the glob
matches, skips symbolic links whenever a regular file candidate exists, and
opens the last remaining candidate of the sorted order. -/
theorem find_library_orders_and_picks_last
    (dlopenOk : List Char → Bool) (fname : List Char) (g : List FileEntry)
    (hopen : dlopenOk fname = false) (hmulti : g.length > 1) :
    (jit_find_library dlopenOk none fname g =
      match chooseCandidate (sortByLt (fun x y => verLt x.path y.path) g) with
      | some c => if dlopenOk c then some c else none
      | none => none) ∧
    (sortByLt (fun x y => verLt x.path y.path) g).Perm g ∧
    (∀ p da db s t : List Char,
      (∀ c ∈ p, c.isDigit = false) →
      da ≠ [] → db ≠ [] →
      (∀ c ∈ da, c.isDigit = true) → (∀ c ∈ db, c.isDigit = true) →
      (∀ c ∈ s.take 1, c.isDigit = false) → (∀ c ∈ t.take 1, c.isDigit = false) →
      strtolInt (digitsVal da) ≠ strtolInt (digitsVal db) →
      verLt (p ++ da ++ s) (p ++ db ++ t) =
        decide (strtolInt (digitsVal da) < strtolInt (digitsVal db))) ∧
    (∀ p da db s t : List Char,
      (∀ c ∈ p, c.isDigit = false) →
      da ≠ [] → db ≠ [] →
      (∀ c ∈ da, c.isDigit = true) → (∀ c ∈ db, c.isDigit = true) →
      (∀ c ∈ s.take 1, c.isDigit = false) → (∀ c ∈ t.take 1, c.isDigit = false) →
      digitsVal da < 2 ^ 31 → digitsVal db < 2 ^ 31 →
      digitsVal da ≠ digitsVal db →
      verLt (p ++ da ++ s) (p ++ db ++ t) =
        decide (digitsVal da < digitsVal db)) ∧
    (∀ p : List Char, ∀ cs ct : Char, ∀ s1 t1 : List Char,
      (∀ c ∈ p, c.isDigit = false) → cs ≠ ct →
      (cs.isDigit && ct.isDigit) = false →
      verLt (p ++ cs :: s1) (p ++ ct :: t1) = strcmpLt (cs :: s1) (ct :: t1)) := by
  refine ⟨?_, sortByLt_perm _ g, verLt_digit_runs, verLt_digit_runs_small,
    verLt_lex_fallback⟩
  unfold jit_find_library
  simp only [Option.getD, hopen, Bool.false_eq_true, if_false, ite_false,
    hmulti, if_pos, gt_iff_lt, ite_true]

/-- Witness for C4: three glob matches for `libLLVM.so`; the sorted order is
9 < 10 < 11, the 10 entry is a symbolic link and is skipped, and the last
remaining candidate 11 is opened. -/
theorem find_library_orders_witness :
    jit_find_library (fun q => decide (q = "libLLVM-11.so".toList)) none
      "libLLVM.so".toList
      [{ path := "libLLVM-10.so".toList, isLinkOrUnstat := true },
       { path := "libLLVM-9.so".toList },
       { path := "libLLVM-11.so".toList }] = some "libLLVM-11.so".toList :=
  ((find_library_orders_and_picks_last
      (fun q => decide (q = "libLLVM-11.so".toList)) "libLLVM.so".toList
      [{ path := "libLLVM-10.so".toList, isLinkOrUnstat := true },
       { path := "libLLVM-9.so".toList },
       { path := "libLLVM-11.so".toList }] (by decide) (by decide)).1).trans
    (by decide)

/-- Claim C9: `jit_find_library` honors the override environment variable —
a non-empty value is tried instead of the canonical name and its failure is
final (the glob never runs, so the result is independent of the glob
matches), while an empty value behaves exactly as an unset one — and every
load failure produces a null handle rather than terminating. -/
theorem find_library_env_override_and_nonfatal
    (dlopenOk : List Char → Bool) (v fname : List Char)
    (g g2 : List FileEntry) (hv : v ≠ []) :
    (jit_find_library dlopenOk (some v) fname g =
      (if dlopenOk v then some v else none)) ∧
    (jit_find_library dlopenOk (some v) fname g =
      jit_find_library dlopenOk (some v) fname g2) ∧
    (jit_find_library dlopenOk (some []) fname g =
      jit_find_library dlopenOk none fname g) ∧
    (∀ ok : List Char → Bool, (∀ q, ok q = false) →
      ∀ ev : Option (List Char), jit_find_library ok ev fname g = none) := by
  have hne : v.isEmpty = false := by
    cases v with
    | nil => exact absurd rfl hv
    | cons c cs => rfl
  have hmain : ∀ gl : List FileEntry,
      jit_find_library dlopenOk (some v) fname gl =
        (if dlopenOk v then some v else none) := by
    intro gl
    unfold jit_find_library
    simp only [hne, Bool.false_eq_true, if_false, ite_false, Option.getD]
  refine ⟨hmain g, (hmain g).trans (hmain g2).symm, rfl, ?_⟩
  intro ok hok ev
  unfold jit_find_library
  cases ev with
  | none =>
    simp only [Option.getD, hok, Bool.false_eq_true, if_false, ite_false]
    try (rcases hch : (if g.length > 1 then
        chooseCandidate (sortByLt (fun x y => verLt x.path y.path) g)
      else if g.length = 1 then (g.head?).map (fun f => f.path)
      else none) with _ | c <;> simp [hch, hok])
  | some w =>
    by_cases hw : w.isEmpty
    · simp only [hw, ite_true, Option.getD, hok, Bool.false_eq_true, if_false,
        ite_false]
      try (rcases hch : (if g.length > 1 then
          chooseCandidate (sortByLt (fun x y => verLt x.path y.path) g)
        else if g.length = 1 then (g.head?).map (fun f => f.path)
        else none) with _ | c <;> simp [hch, hok])
    · simp only [hw, Bool.false_eq_true, if_false, ite_false, Option.getD,
        hok]

/-- Witness for C9: a set override is opened directly. -/
theorem find_library_env_override_witness :
    jit_find_library (fun q => decide (q = "ov".toList)) (some "ov".toList)
      "f".toList [] = some "ov".toList :=
  ((find_library_env_override_and_nonfatal
      (fun q => decide (q = "ov".toList)) "ov".toList "f".toList [] []
      (by decide)).1).trans (by decide)

end EnokiJit
